import Mathlib

/-!
Shallow embedding of `src/modules/config.rs` of the bacman repository.

The Rust code defines a configuration document model (`Config`, `GlobalConfig`,
`Profile`, `BackupPath`, `ResolvedBackupPath`), a resolver
(`Config::resolve_backup_paths`), a validator (`Config::validate`), a loader
(`deserialize_config`) and a projection (`extract_paths`).

Modelling choices:
- Rust `HashMap<String, Profile>` becomes an association list
  `List (String × Profile)`; `get`/`contains_key` become `lookupProfile`.
  TOML tables have unique keys, so first-match lookup is faithful.
- Filesystem existence (`Path::new(..).exists()`) is an explicit parameter
  `fs : String → Bool` threaded through `validate`.
- `deserialize_config` abstracts its effects: the project-directory lookup,
  the file read and the TOML parse are parameters; the function mirrors the
  Rust `ok_or_else / and_then / map_err` chain on `Except`.
- Rust `str::to_lowercase` is modelled by `String.toLower` (ASCII case
  folding; the validator only compares against ASCII keywords).
- Rust `errors.join("\n")` is modelled by `joinStrings`, a direct
  transcription of separator-join.
-/

namespace Bacman

/-- `struct GlobalConfig` from config.rs. -/
structure GlobalConfig where
  default_profile : Option String
deriving Repr, DecidableEq

/-- `struct Profile` from config.rs. -/
structure Profile where
  encrypt : Option Bool
  backup_method : Option (List String)
  backup_to : Option String
  interval : Option String
deriving Repr, DecidableEq

/-- `struct BackupPath` from config.rs. -/
structure BackupPath where
  path : String
  profile : Option String
  encrypt : Option Bool
  backup_method : Option (List String)
  backup_to : Option String
  interval : Option String
deriving Repr, DecidableEq

/-- `struct ResolvedBackupPath` from config.rs. -/
structure ResolvedBackupPath where
  path : String
  encrypt : Option Bool
  backup_method : Option (List String)
  backup_to : Option String
  interval : Option String
deriving Repr, DecidableEq

/-- `struct Config` from config.rs; the profile map is an association list. -/
structure Config where
  global : GlobalConfig
  profiles : List (String × Profile)
  backup_paths : List BackupPath
deriving Repr, DecidableEq

/-- `enum ConfigError` from config.rs (single variant `Invalid(String)`). -/
inductive ConfigError where
  | Invalid (msg : String)
deriving Repr, DecidableEq

/-- `thiserror` display of `ConfigError`: `"Invalid configuration: {0}"`. -/
def ConfigError.toMessage : ConfigError → String
  | .Invalid s => "Invalid configuration: " ++ s

/-- `self.profiles.get(name)` / `self.profiles.contains_key(name)` on the
association-list model of the `HashMap`. -/
def lookupProfile (profiles : List (String × Profile)) (name : String) : Option Profile :=
  match profiles with
  | [] => none
  | (k, v) :: rest => if k = name then some v else lookupProfile rest name

/-- The profile selection inside `resolve_backup_paths` (config.rs lines 61-70):
`path.profile.as_ref().and_then(|p| self.profiles.get(p)).or_else(|| self.global.default_profile.as_ref().and_then(|d| self.profiles.get(d)))`. -/
def effectiveProfile (c : Config) (p : BackupPath) : Option Profile :=
  match p.profile.bind (fun name => lookupProfile c.profiles name) with
  | some prof => some prof
  | none => c.global.default_profile.bind (fun d => lookupProfile c.profiles d)

/-- The body of the `map` closure in `resolve_backup_paths`
(config.rs lines 59-85): per-field precedence, path value first,
effective profile second, absent last. -/
def resolveBackupPath (c : Config) (p : BackupPath) : ResolvedBackupPath :=
  let profile := effectiveProfile c p
  { path := p.path
    encrypt := match p.encrypt with
      | some v => some v
      | none => profile.bind (fun pr => pr.encrypt)
    backup_method := match p.backup_method with
      | some v => some v
      | none => profile.bind (fun pr => pr.backup_method)
    backup_to := match p.backup_to with
      | some v => some v
      | none => profile.bind (fun pr => pr.backup_to)
    interval := match p.interval with
      | some v => some v
      | none => profile.bind (fun pr => pr.interval) }

/-- `Config::resolve_backup_paths` (config.rs lines 56-88):
`self.backup_paths.iter().map(..).collect()`. -/
def Config.resolve_backup_paths (c : Config) : List ResolvedBackupPath :=
  c.backup_paths.map (resolveBackupPath c)

/-- Rust `str::to_lowercase`, modelled as per-character lowercasing (ASCII
case folding; the validator only compares the result against ASCII
keywords). -/
def lowercase (s : String) : String :=
  String.mk (s.data.map Char.toLower)

/-- Rust `str::starts_with` on a string pattern: character-list prefix
test. -/
def strBeginsWith (s pre : String) : Bool :=
  pre.data.isPrefixOf s.data

/-- The backup-method keyword check in `validate` (config.rs lines 116-119):
`match method.to_lowercase().as_str() { "local" | "git" | "gdrive" | "pdrive" | "dropbox" => (), _ => error }`. -/
def methodValid (m : String) : Bool :=
  let lower := lowercase m
  lower = "local" || lower = "git" || lower = "gdrive" || lower = "pdrive" || lower = "dropbox"

/-- The interval check in `validate` (config.rs lines 125-126): the interval
is accepted when `interval.chars().any(|c| c.is_digit(10))` and
`interval.ends_with(|c| matches!(c, 'd' | 'h' | 'm'))` both hold. -/
def intervalValid (s : String) : Bool :=
  s.data.any (fun c => c.isDigit) &&
    (match s.data.getLast? with
     | some c => c = 'd' || c = 'h' || c = 'm'
     | none => false)

/-- The `backup_to` checks in `validate` (config.rs lines 132-140). -/
def destErrors (fs : String → Bool) (dest : String) : List String :=
  if strBeginsWith dest "/" || strBeginsWith dest "./" then
    if fs dest then [] else ["Backup destination not accessible: " ++ dest]
  else if strBeginsWith dest "git@" || strBeginsWith dest "https://" then []
  else ["Invalid backup destination format: " ++ dest]

/-- The violations pushed for one raw `BackupPath` in the main `validate`
loop (config.rs lines 100-141), in push order. -/
def pathErrors (fs : String → Bool) (c : Config) (p : BackupPath) : List String :=
  (if fs p.path then [] else ["Path does not exist: " ++ p.path]) ++
  (match p.profile with
   | some name =>
     if (lookupProfile c.profiles name).isSome then []
     else ["Referenced profile not found: " ++ name]
   | none => []) ++
  (match p.backup_method with
   | some ms => ms.flatMap (fun m => if methodValid m then [] else ["Invalid backup method: " ++ m])
   | none => []) ++
  (match p.interval with
   | some s => if intervalValid s then [] else ["Invalid interval format: " ++ s]
   | none => []) ++
  (match p.backup_to with
   | some d => destErrors fs d
   | none => [])

/-- The violations pushed for one `ResolvedBackupPath` in the post-resolution
loop of `validate` (config.rs lines 145-152). -/
def resolvedErrors (r : ResolvedBackupPath) : List String :=
  (if r.backup_method.isNone then ["No backup method specified for path: " ++ r.path] else []) ++
  (if r.backup_to.isNone then ["No backup destination specified for path: " ++ r.path] else [])

/-- The violations pushed for the global default profile
(config.rs lines 93-97). -/
def defaultProfileErrors (c : Config) : List String :=
  match c.global.default_profile with
  | some d =>
    if (lookupProfile c.profiles d).isSome then []
    else ["Default profile '" ++ d ++ "' not found"]
  | none => []

/-- The complete ordered violation list accumulated by `Config::validate`
(config.rs lines 89-155), in the code's push order. -/
def validateErrors (fs : String → Bool) (c : Config) : List String :=
  defaultProfileErrors c ++
  c.backup_paths.flatMap (pathErrors fs c) ++
  (c.resolve_backup_paths).flatMap resolvedErrors

/-- Rust `Vec::<String>::join("\n")` (config.rs line 159). -/
def joinStrings : List String → String
  | [] => ""
  | [x] => x
  | x :: xs => x ++ "\n" ++ joinStrings xs

/-- `Config::validate` (config.rs lines 89-161): `Ok(())` when the
accumulated violation list is empty, otherwise
`Err(ConfigError::Invalid(errors.join("\n")))`. -/
def Config.validate (fs : String → Bool) (c : Config) : Except ConfigError Unit :=
  if validateErrors fs c = [] then .ok ()
  else .error (.Invalid (joinStrings (validateErrors fs c)))

/-- `deserialize_config` (config.rs lines 165-182) with its effects
abstracted: `projDir` is `ProjectDirs::from("", "", "bacman")` reduced to the
config-directory path, `readFile` is `fs::read_to_string`, `parseToml` is
`toml::from_str::<Config>`, and `fs` is the filesystem predicate used by
`validate`. -/
def deserialize_config (projDir : Option String)
    (readFile : String → Except String String)
    (parseToml : String → Except String Config)
    (fs : String → Bool) : Except String (List ResolvedBackupPath) :=
  match projDir with
  | none => .error "Could not determine project directories"
  | some dir =>
    let config_path := dir ++ "/config.toml"
    match readFile config_path with
    | .error e => .error ("Failed to read config file: " ++ e)
    | .ok config_str =>
      match parseToml config_str with
      | .error e => .error ("Failed to parse config: " ++ e)
      | .ok config =>
        match config.validate fs with
        | .error ce => .error ce.toMessage
        | .ok _ => .ok config.resolve_backup_paths

/-- `extract_paths` (config.rs lines 184-191): pushes `config.path.clone()`
for each entry, in order. -/
def extract_paths (configs : List ResolvedBackupPath) : List String :=
  configs.map (fun config => config.path)

end Bacman

namespace Bacman

/-! ### Concrete documents used as counterexamples and witnesses -/

/-- A filesystem on which every path exists. -/
def fsAll : String → Bool := fun _ => true

/-- A filesystem on which no path exists. -/
def fsNone : String → Bool := fun _ => false

/-- Profile `"d"` of the C1 counterexample document: sets only `encrypt`. -/
def profD : Profile := ⟨some true, none, none, none⟩

/-- C1 counterexample document: `default_profile = "d"`, one path whose
`profile` names the absent `"missing"`. -/
def cfgC1 : Config :=
  ⟨⟨some "d"⟩, [("d", profD)], [⟨"/x", some "missing", none, none, none, none⟩]⟩

/-- Profile `"p"` of the C2 counterexample document: supplies an invalid
backup method `"bogus"` together with a valid destination. -/
def profBogus : Profile := ⟨none, some ["bogus"], some "git@x", none⟩

/-- C2 counterexample document: the path inherits `backup_method = ["bogus"]`
from profile `"p"` and declares none of its own. -/
def cfgC2 : Config :=
  ⟨⟨none⟩, [("p", profBogus)], [⟨"/x", some "p", none, none, none, none⟩]⟩

/-- A fully valid document: one path with a valid method and destination. -/
def cfgOk : Config :=
  ⟨⟨none⟩, [], [⟨"/x", none, none, some ["git"], some "git@x", none⟩]⟩

/-- A document whose single path resolves with no backup method and no
backup destination. -/
def cfgMissing : Config :=
  ⟨⟨none⟩, [], [⟨"/x", none, none, none, none, none⟩]⟩

/-- C5 counterexample document: the declared path string embeds a newline. -/
def cfgNl : Config :=
  ⟨⟨none⟩, [], [⟨"a\nb", none, none, none, none, none⟩]⟩

/-- C4 witness document and path: path-level `encrypt` overrides profile
`"a"`, which supplies the remaining fields. -/
def profA : Profile := ⟨some false, some ["git"], some "git@a", some "5h"⟩

/-- The single backup path of the C4 witness document. -/
def pathC4 : BackupPath := ⟨"/x", some "a", some true, none, none, none⟩

/-- The C4 witness document. -/
def cfgC4 : Config := ⟨⟨none⟩, [("a", profA)], [pathC4]⟩

/-- Parametric single-path document isolating the interval rule: every other
rule passes on `fsAll`, so the interval check is the only possible
violation. -/
def intervalCfg (s : String) : Config :=
  ⟨⟨none⟩, [], [⟨"/x", none, none, some ["git"], some "git@x", some s⟩]⟩

/-- A file read that always fails with the OS text Rust would report for a
missing file. -/
def readFail : String → Except String String :=
  fun _ => .error "No such file or directory (os error 2)"

/-- A TOML parse stub; `deserialize_config` must never reach it when the
read fails. -/
def parseNothing : String → Except String Config := fun _ => .error "unused"

/-! ### Helper lemmas -/

/-- `validate` succeeds exactly when the accumulated violation list is
empty. -/
theorem validate_ok_iff (fs : String → Bool) (c : Config) :
    c.validate fs = .ok () ↔ validateErrors fs c = [] := by
  unfold Config.validate
  by_cases h : validateErrors fs c = [] <;> simp [h]

/-- Every violation recorded for a declared path appears in the full
violation list. -/
theorem mem_validateErrors_of_mem_pathErrors {fs : String → Bool} {c : Config}
    {p : BackupPath} {e : String} (he : e ∈ pathErrors fs c p)
    (hp : p ∈ c.backup_paths) : e ∈ validateErrors fs c := by
  unfold validateErrors
  exact List.mem_append.mpr (Or.inl (List.mem_append.mpr
    (Or.inr (List.mem_flatMap.mpr ⟨p, hp, he⟩))))

/-- Every violation recorded for a resolved path appears in the full
violation list. -/
theorem mem_validateErrors_of_mem_resolvedErrors {fs : String → Bool}
    {c : Config} {r : ResolvedBackupPath} {e : String}
    (he : e ∈ resolvedErrors r) (hr : r ∈ c.resolve_backup_paths) :
    e ∈ validateErrors fs c := by
  unfold validateErrors
  exact List.mem_append.mpr (Or.inr (List.mem_flatMap.mpr ⟨r, hr, he⟩))

end Bacman

namespace Bacman

/-! ### Claim theorems -/

/-- C3: for every document, `resolve_backup_paths` returns exactly one
`ResolvedBackupPath` per entry of `backup_paths`, in the same order and with
the same length as the input list, unconditionally: entry `i` of the output
is the resolution of entry `i` of the input. -/
theorem c3_resolve_one_per_input (c : Config) :
    (c.resolve_backup_paths).length = c.backup_paths.length ∧
    ∀ i : Nat, (c.resolve_backup_paths)[i]? =
      (c.backup_paths[i]?).map (resolveBackupPath c) := by
  refine ⟨by simp [Config.resolve_backup_paths], fun i => ?_⟩
  simp [Config.resolve_backup_paths]

/-- C9: resolution is a pure, total function — for every document, also one
with dangling profile references or unset fields, `resolve_backup_paths`
terminates with a result list of the input's length (totality is witnessed by
`Config.resolve_backup_paths` being a terminating Lean function on all of
`Config`). -/
theorem c9_resolution_total (c : Config) :
    ∃ out : List ResolvedBackupPath, c.resolve_backup_paths = out ∧
      out.length = c.backup_paths.length :=
  ⟨c.resolve_backup_paths, rfl, by simp [Config.resolve_backup_paths]⟩

/-- C10: resolution copies each input `path` verbatim, so `extract_paths`
applied to the resolver's output is exactly the ordered list of declared
path strings. -/
theorem c10_extract_paths_verbatim (c : Config) :
    extract_paths c.resolve_backup_paths = c.backup_paths.map BackupPath.path ∧
    ∀ i : Nat, ((c.resolve_backup_paths)[i]?).map ResolvedBackupPath.path =
      (c.backup_paths[i]?).map BackupPath.path := by
  constructor
  · simp [extract_paths, Config.resolve_backup_paths, List.map_map]
    intro a _
    simp [resolveBackupPath]
  · intro i
    simp [Config.resolve_backup_paths]
    cases c.backup_paths[i]? <;> simp [resolveBackupPath]

/-- C4: for every document, path and each of the four fields independently —
if the path's own value is present the resolved field equals exactly that
value (lists replaced wholesale), else it equals the effective profile's
value for the field, absent when the profile is absent or lacks it. -/
theorem c4_field_precedence (c : Config) (p : BackupPath) :
    ((∀ v, p.encrypt = some v → (resolveBackupPath c p).encrypt = some v) ∧
     (p.encrypt = none → (resolveBackupPath c p).encrypt =
        (effectiveProfile c p).bind (fun pr => pr.encrypt))) ∧
    ((∀ v, p.backup_method = some v →
        (resolveBackupPath c p).backup_method = some v) ∧
     (p.backup_method = none → (resolveBackupPath c p).backup_method =
        (effectiveProfile c p).bind (fun pr => pr.backup_method))) ∧
    ((∀ v, p.backup_to = some v → (resolveBackupPath c p).backup_to = some v) ∧
     (p.backup_to = none → (resolveBackupPath c p).backup_to =
        (effectiveProfile c p).bind (fun pr => pr.backup_to))) ∧
    ((∀ v, p.interval = some v → (resolveBackupPath c p).interval = some v) ∧
     (p.interval = none → (resolveBackupPath c p).interval =
        (effectiveProfile c p).bind (fun pr => pr.interval))) := by
  refine ⟨⟨?_, ?_⟩, ⟨?_, ?_⟩, ⟨?_, ?_⟩, ⟨?_, ?_⟩⟩ <;>
    first
      | (intro v hv; simp [resolveBackupPath, hv])
      | (intro hv; simp [resolveBackupPath, hv])

/-- C4 witness: on the concrete document `cfgC4`, the path-level
`encrypt = some true` wins over profile `"a"`, and the unset
`backup_method` falls through to the effective profile's value. -/
theorem c4_field_precedence_witness :
    (resolveBackupPath cfgC4 pathC4).encrypt = some true ∧
    (resolveBackupPath cfgC4 pathC4).backup_method =
      (effectiveProfile cfgC4 pathC4).bind (fun pr => pr.backup_method) :=
  ⟨(c4_field_precedence cfgC4 pathC4).1.1 true rfl,
   (c4_field_precedence cfgC4 pathC4).2.1.2 rfl⟩

end Bacman

namespace Bacman

/-- C1 counterexample: in `cfgC1` the path references the absent profile
`"missing"` while `default_profile = "d"` is declared; the resolver does NOT
treat the effective profile as absent — it falls back to profile `"d"`, so
the resolved `encrypt` is `some true` rather than `none` as the claim
requires. -/
theorem c1_counterexample :
    effectiveProfile cfgC1 ⟨"/x", some "missing", none, none, none, none⟩ = some profD ∧
    (cfgC1.resolve_backup_paths).map ResolvedBackupPath.encrypt = [some true] ∧
    ¬ ((cfgC1.resolve_backup_paths).map ResolvedBackupPath.encrypt = [none]) := by
  refine ⟨by decide, by decide, by decide⟩

/-- C1 amended: when a `BackupPath` references a profile name absent from the
mapping, the resolver falls back to looking up `GlobalConfig.default_profile`
— the default is consulted whenever the explicit lookup yields no profile,
not only when the path has no explicit profile reference; the effective
profile is absent only when that fallback also yields nothing. -/
theorem c1_dangling_reference_falls_back (c : Config) (p : BackupPath)
    (name : String) (h1 : p.profile = some name)
    (h2 : lookupProfile c.profiles name = none) :
    effectiveProfile c p =
      c.global.default_profile.bind (fun d => lookupProfile c.profiles d) := by
  simp [effectiveProfile, h1, h2]

/-- C1 witness: `c1_dangling_reference_falls_back` applied to `cfgC1` at its
single path. -/
theorem c1_dangling_reference_falls_back_witness :
    effectiveProfile cfgC1 ⟨"/x", some "missing", none, none, none, none⟩ =
      cfgC1.global.default_profile.bind (fun d => lookupProfile cfgC1.profiles d) :=
  c1_dangling_reference_falls_back cfgC1 _ "missing" rfl (by decide)

end Bacman

namespace Bacman

/-- C2 counterexample: `cfgC2` passes `validate` on a filesystem where every
path exists, yet its single resolved entry inherits
`backup_method = ["bogus"]` from profile `"p"`, and `"bogus"` is outside the
fixed enum — the validator never checks profile-supplied method entries. -/
theorem c2_counterexample :
    cfgC2.validate fsAll = .ok () ∧
    (cfgC2.resolve_backup_paths).map ResolvedBackupPath.backup_method =
      [some ["bogus"]] ∧
    methodValid "bogus" = false := by
  refine ⟨?_, by decide, by decide⟩
  rw [validate_ok_iff]
  decide

/-- C2 amended: if `validate` succeeds then every `backup_method` entry
declared directly on a `BackupPath` (raw, pre-resolution) case-insensitively
belongs to {local, git, gdrive, pdrive, dropbox}; entries supplied only by a
`Profile` and inherited through resolution are not checked and may lie
outside the enum. -/
theorem c2_raw_methods_valid_of_validate_ok (fs : String → Bool) (c : Config)
    (h : c.validate fs = .ok ()) :
    ∀ p ∈ c.backup_paths, ∀ ms, p.backup_method = some ms →
      ∀ m ∈ ms, methodValid m = true := by
  intro p hp ms hms m hm
  by_contra hbad
  have hbad' : methodValid m = false := by
    cases hmv : methodValid m
    · rfl
    · exact absurd hmv hbad
  have hmem : ("Invalid backup method: " ++ m) ∈ pathErrors fs c p := by
    unfold pathErrors
    rw [hms]
    refine List.mem_append.mpr (Or.inl (List.mem_append.mpr (Or.inl
      (List.mem_append.mpr (Or.inr ?_)))))
    exact List.mem_flatMap.mpr ⟨m, hm, by simp [hbad']⟩
  have hall := mem_validateErrors_of_mem_pathErrors hmem hp
  rw [(validate_ok_iff fs c).mp h] at hall
  exact absurd hall (List.not_mem_nil _)

/-- C2 witness: `c2_raw_methods_valid_of_validate_ok` applied to the valid
document `cfgOk`, whose single path declares `backup_method = ["git"]`. -/
theorem c2_raw_methods_valid_witness :
    methodValid "git" = true :=
  c2_raw_methods_valid_of_validate_ok fsAll cfgOk
    (by rw [validate_ok_iff]; decide)
    ⟨"/x", none, none, some ["git"], some "git@x", none⟩ (by decide)
    ["git"] rfl "git" (by decide)

end Bacman

namespace Bacman

/-- C6: `validate` runs the resolver internally and records a violation for
each resolved entry whose `backup_method` is absent and one for each whose
`backup_to` is absent; consequently `validate` never succeeds on a document
in which some path resolves with either field missing. -/
theorem c6_resolved_fields_mandatory (fs : String → Bool) (c : Config) :
    (∀ r ∈ c.resolve_backup_paths, r.backup_method = none →
      ("No backup method specified for path: " ++ r.path) ∈ validateErrors fs c) ∧
    (∀ r ∈ c.resolve_backup_paths, r.backup_to = none →
      ("No backup destination specified for path: " ++ r.path) ∈ validateErrors fs c) ∧
    (c.validate fs = .ok () → ∀ r ∈ c.resolve_backup_paths,
      r.backup_method.isSome ∧ r.backup_to.isSome) := by
  refine ⟨fun r hr hnone => ?_, fun r hr hnone => ?_, fun h r hr => ?_⟩
  · exact mem_validateErrors_of_mem_resolvedErrors
      (by simp [resolvedErrors, hnone]) hr
  · exact mem_validateErrors_of_mem_resolvedErrors
      (by simp [resolvedErrors, hnone]) hr
  · constructor
    · cases hm : r.backup_method with
      | some v => rfl
      | none =>
        have hall := @mem_validateErrors_of_mem_resolvedErrors fs c r
          ("No backup method specified for path: " ++ r.path)
          (by simp [resolvedErrors, hm]) hr
        rw [(validate_ok_iff fs c).mp h] at hall
        exact absurd hall (List.not_mem_nil _)
    · cases hm : r.backup_to with
      | some v => rfl
      | none =>
        have hall := @mem_validateErrors_of_mem_resolvedErrors fs c r
          ("No backup destination specified for path: " ++ r.path)
          (by simp [resolvedErrors, hm]) hr
        rw [(validate_ok_iff fs c).mp h] at hall
        exact absurd hall (List.not_mem_nil _)

/-- C6 witness: on `cfgMissing` (whose single path resolves with no method
and no destination) both violations are recorded even though every path
exists; and on the valid `cfgOk` the success case yields both fields
present. -/
theorem c6_resolved_fields_mandatory_witness :
    ("No backup method specified for path: /x") ∈ validateErrors fsAll cfgMissing ∧
    ("No backup destination specified for path: /x") ∈ validateErrors fsAll cfgMissing ∧
    (resolveBackupPath cfgOk ⟨"/x", none, none, some ["git"], some "git@x", none⟩).backup_method.isSome := by
  refine ⟨?_, ?_, ?_⟩
  · exact (c6_resolved_fields_mandatory fsAll cfgMissing).1
      ⟨"/x", none, none, none, none⟩ (by decide) rfl
  · exact (c6_resolved_fields_mandatory fsAll cfgMissing).2.1
      ⟨"/x", none, none, none, none⟩ (by decide) rfl
  · exact ((c6_resolved_fields_mandatory fsAll cfgOk).2.2
      (by rw [validate_ok_iff]; decide)
      (resolveBackupPath cfgOk ⟨"/x", none, none, some ["git"], some "git@x", none⟩)
      (by decide)).1

end Bacman

namespace Bacman

/-- Helper: appending strings concatenates their character lists. -/
theorem data_append (a b : String) : (a ++ b).data = a.data ++ b.data := rfl

/-- Helper: joining a nonempty list of newline-free strings with `"\n"`
yields one newline fewer than the number of strings. -/
theorem joinStrings_newline_count (l : List String) (hne : l ≠ [])
    (h : ∀ e ∈ l, e.data.count '\n' = 0) :
    (joinStrings l).data.count '\n' + 1 = l.length := by
  induction l with
  | nil => exact absurd rfl hne
  | cons x xs ih =>
    cases xs with
    | nil => simp [joinStrings, h x (by simp)]
    | cons y ys =>
      have hx := h x (by simp)
      have hxs : ∀ e ∈ y :: ys, e.data.count '\n' = 0 :=
        fun e he => h e (by simp [he])
      have hrec := ih (by simp) hxs
      show ((x ++ "\n" ++ joinStrings (y :: ys)).data.count '\n') + 1 =
        (y :: ys).length + 1
      rw [data_append, data_append, List.count_append, List.count_append, hx]
      have hn : ("\n").data.count '\n' = 1 := by decide
      rw [hn]
      omega

/-- C5 counterexample: on `cfgNl` (single declared path `"a\nb"`, nothing on
the filesystem) `validate` accumulates exactly 3 violations, but the joined
failure message spans 6 lines (newline count 5 plus one), because the
offending path string itself contains a newline — the message's line count
does not equal the violation count. -/
theorem c5_counterexample :
    (validateErrors fsNone cfgNl).length = 3 ∧
    cfgNl.validate fsNone =
      .error (.Invalid (joinStrings (validateErrors fsNone cfgNl))) ∧
    (joinStrings (validateErrors fsNone cfgNl)).data.count '\n' + 1 = 6 ∧
    ¬ ((joinStrings (validateErrors fsNone cfgNl)).data.count '\n' + 1 =
        (validateErrors fsNone cfgNl).length) := by
  refine ⟨by decide, ?_, by decide, by decide⟩
  have hne : ¬ (validateErrors fsNone cfgNl = []) := by decide
  simp [Config.validate, hne]

/-- C5 amended: `validate` succeeds iff no rule produces a violation, and
otherwise fails once with the newline-joined concatenation of all violation
messages, with no early return, deduplication or truncation; the message's
line count equals the violation count PROVIDED no individual violation
message itself contains a newline (messages embed document-supplied strings,
which may embed newlines). -/
theorem c5_validate_aggregation (fs : String → Bool) (c : Config) :
    (c.validate fs = .ok () ↔ validateErrors fs c = []) ∧
    (∀ msg, c.validate fs = .error (.Invalid msg) →
      msg = joinStrings (validateErrors fs c) ∧
      ((∀ e ∈ validateErrors fs c, e.data.count '\n' = 0) →
        msg.data.count '\n' + 1 = (validateErrors fs c).length)) := by
  refine ⟨validate_ok_iff fs c, fun msg hmsg => ?_⟩
  by_cases h : validateErrors fs c = []
  · simp [Config.validate, h] at hmsg
  · have hm : msg = joinStrings (validateErrors fs c) := by
      simp [Config.validate, h] at hmsg
      exact hmsg.symm
    refine ⟨hm, fun hnl => ?_⟩
    rw [hm]
    exact joinStrings_newline_count _ h hnl

/-- C5 witness: on `cfgMissing` with every path existing, `validate` fails
with exactly the 2 accumulated violations, and since neither message embeds
a newline the joined message spans exactly 2 lines. -/
theorem c5_validate_aggregation_witness :
    cfgMissing.validate fsAll =
      .error (.Invalid (joinStrings (validateErrors fsAll cfgMissing))) ∧
    (joinStrings (validateErrors fsAll cfgMissing)).data.count '\n' + 1 =
      (validateErrors fsAll cfgMissing).length := by
  have hfail : cfgMissing.validate fsAll =
      .error (.Invalid (joinStrings (validateErrors fsAll cfgMissing))) := by
    have hne : ¬ (validateErrors fsAll cfgMissing = []) := by decide
    simp [Config.validate, hne]
  exact ⟨hfail,
    ((c5_validate_aggregation fsAll cfgMissing).2 _ hfail).2 (by decide)⟩

end Bacman

namespace Bacman

/-- C7: when the configuration file read fails, `deserialize_config` returns
a read error wrapping the underlying I/O failure text, for EVERY parser and
filesystem (so parsing, validation and resolution are never consulted), and
in particular never returns a successful (empty or otherwise) result
list. -/
theorem c7_read_error_short_circuits (dir : String)
    (readFile : String → Except String String)
    (parseToml : String → Except String Config) (fs : String → Bool)
    (e : String) (h : readFile (dir ++ "/config.toml") = .error e) :
    deserialize_config (some dir) readFile parseToml fs =
      .error ("Failed to read config file: " ++ e) ∧
    ∀ l, deserialize_config (some dir) readFile parseToml fs ≠ .ok l := by
  constructor
  · simp [deserialize_config, h]
  · intro l hl
    simp [deserialize_config, h] at hl

/-- C7 witness: a read that fails with the OS missing-file text produces the
wrapped read error, for a parser that is never reached. -/
theorem c7_read_error_short_circuits_witness :
    deserialize_config (some "/home/u/.config/bacman") readFail parseNothing fsAll =
      .error ("Failed to read config file: No such file or directory (os error 2)") ∧
    deserialize_config (some "/home/u/.config/bacman") readFail parseNothing fsAll ≠
      .ok [] :=
  ⟨(c7_read_error_short_circuits "/home/u/.config/bacman" readFail parseNothing
      fsAll "No such file or directory (os error 2)" rfl).1,
   (c7_read_error_short_circuits "/home/u/.config/bacman" readFail parseNothing
      fsAll "No such file or directory (os error 2)" rfl).2 []⟩

end Bacman

namespace Bacman

/-- C8: for every interval string, `validate` records no violation for it iff
the string contains at least one decimal digit and its last character is one
of 'd', 'h', 'm'; on the single-path document `intervalCfg s` (where every
other rule passes) the interval check is the only possible violation, so
`validate` succeeds iff the interval is well-formed; "10d", "5h", "30m" pass
and "10x" fails. -/
theorem c8_interval_rule (s : String) :
    (validateErrors fsAll (intervalCfg s) =
      if intervalValid s then [] else ["Invalid interval format: " ++ s]) ∧
    ((intervalCfg s).validate fsAll = .ok () ↔ intervalValid s = true) ∧
    (intervalValid s = true ↔
      (s.data.any (fun c => c.isDigit) = true ∧
       ∃ c, s.data.getLast? = some c ∧ (c = 'd' ∨ c = 'h' ∨ c = 'm'))) ∧
    intervalValid "10d" = true ∧ intervalValid "5h" = true ∧
    intervalValid "30m" = true ∧ intervalValid "10x" = false := by
  have hm : methodValid "git" = true := by decide
  have h1 : strBeginsWith "git@x" "/" = false := by decide
  have h2 : strBeginsWith "git@x" "./" = false := by decide
  have h3 : strBeginsWith "git@x" "git@" = true := by decide
  have hlist : validateErrors fsAll (intervalCfg s) =
      if intervalValid s then [] else ["Invalid interval format: " ++ s] := by
    simp [validateErrors, intervalCfg, defaultProfileErrors, pathErrors,
      destErrors, fsAll, hm, h1, h2, h3, Config.resolve_backup_paths,
      resolveBackupPath, resolvedErrors, effectiveProfile, lookupProfile]
  refine ⟨hlist, ?_, ?_, by decide, by decide, by decide, by decide⟩
  · rw [validate_ok_iff, hlist]
    cases hv : intervalValid s <;> simp [hv]
  · cases hl : s.data.getLast? with
    | none => simp [intervalValid, hl]
    | some c =>
      simp [intervalValid, hl]
      intro _ _ _
      tauto

end Bacman
